import Mathlib

/-!
Verification of the nekro-agent execution-scheduling, broadcast and quota layer.

The definitions below are a shallow embedding of the Python source:
- `src/nekro_agent/services/quota_service.py` (QuotaService)
- `src/nekro_agent/services/message_broadcaster.py` (MessageBroadcaster)
- `src/nekro_agent/services/message_service.py` (MessageService)

Python dictionaries (`Dict[str, ...]`) are embedded as association lists over
string keys, with `lookupKey` / `insertKey` / `eraseKey` mirroring
`d.get(k)` / `d[k] = v` / `d.pop(k, None)`.  `time.time()` stamps are
embedded as natural numbers drawn from a monotone non-decreasing clock.
Fallible operations return `Except`.  The file is organised as definitions
first, then the theorems about them.
-/

abbrev Key := String

/-! ### Association-list maps (embedding of Python `dict`) -/

def lookupKey {α : Type} (k : Key) : List (Key × α) → Option α
  | [] => none
  | (k', v) :: rest => if k' = k then some v else lookupKey k rest

def insertKey {α : Type} (k : Key) (v : α) : List (Key × α) → List (Key × α)
  | [] => [(k, v)]
  | (k', v') :: rest => if k' = k then (k, v) :: rest else (k', v') :: insertKey k v rest

def eraseKey {α : Type} (k : Key) : List (Key × α) → List (Key × α)
  | [] => []
  | (k', v') :: rest => if k' = k then rest else (k', v') :: eraseKey k rest

/-- Keys of an association list are pairwise distinct (true of every state that
embeds a Python `dict`). -/
def NodupKeys {α : Type} (l : List (Key × α)) : Prop :=
  (l.map Prod.fst).Nodup

instance {α : Type} (l : List (Key × α)) : Decidable (NodupKeys l) := by
  unfold NodupKeys; infer_instance

/-! ### QuotaService (`src/nekro_agent/services/quota_service.py`)

`self._daily_boosts: Dict[str, Dict]` maps a chat key to
`{"date": <isoformat string>, "boost": <int>}`.  The current date
(`datetime.date.today().isoformat()`) is passed explicitly as the `today`
argument of each operation. -/

structure QuotaInfo where
  date : String
  boost : Int
deriving DecidableEq

structure QuotaService where
  daily_boosts : List (Key × QuotaInfo)
deriving DecidableEq

/-- `get_boost` (quota_service.py lines 22-27): returns the stored boost when
its date equals today, else 0.  A pure read: it takes no updated state. -/
def QuotaService.get_boost (today : String) (s : QuotaService) (chat_key : Key) : Int :=
  match lookupKey chat_key s.daily_boosts with
  | none => 0
  | some info => if info.date ≠ today then 0 else info.boost

/-- `set_boost` (lines 29-35): stores `{today, amount}`, replacing prior state. -/
def QuotaService.set_boost (today : String) (s : QuotaService) (chat_key : Key)
    (amount : Int) : QuotaService :=
  ⟨insertKey chat_key ⟨today, amount⟩ s.daily_boosts⟩

/-- `add_boost` (lines 37-42): read-modify-write returning the new total. -/
def QuotaService.add_boost (today : String) (s : QuotaService) (chat_key : Key)
    (amount : Int) : QuotaService × Int :=
  let current := s.get_boost today chat_key
  let new_total := current + amount
  (s.set_boost today chat_key new_total, new_total)

/-- `clear_boost` (lines 44-46): `self._daily_boosts.pop(chat_key, None)` —
total, also when no record is stored. -/
def QuotaService.clear_boost (s : QuotaService) (chat_key : Key) : QuotaService :=
  ⟨eraseKey chat_key s.daily_boosts⟩

def kExample : Key := "quota:chan"

def dayD : String := "2024-01-15"

def dayAfter : String := "2024-01-16"

/-! ### Messages and Python-level errors -/

/-- The portion of `ChatMessage` the scheduling/broadcast layer inspects:
its channel key (`chat_key`), its platform id (`message_id`, empty string when
absent) and whether it is an empty placeholder (`is_empty()`). -/
structure Msg where
  chat_key : Key
  message_id : String
  empty_flag : Bool
deriving DecidableEq

def Msg.is_empty (m : Msg) : Bool := m.empty_flag

/-- Python exceptions that the embedded code can raise. -/
inductive PyErr
  | queueFull
  | keyError
deriving DecidableEq

/-! ### MessageBroadcaster (`src/nekro_agent/services/message_broadcaster.py`)

`self.queues: Dict[str, list[asyncio.Queue]]`.  An `asyncio.Queue` is a
bounded-or-unbounded FIFO: `maxsize = 0` (the default of `asyncio.Queue()`)
means infinite capacity and `full()` is then always `False`. -/

structure PyQueue where
  maxsize : Nat
  items : List Msg
deriving DecidableEq

/-- `asyncio.Queue.full()`: `True` iff the queue is bounded (`maxsize > 0`)
and holds at least `maxsize` items. -/
def PyQueue.full (q : PyQueue) : Bool :=
  decide (0 < q.maxsize ∧ q.maxsize ≤ q.items.length)

/-- `asyncio.Queue.put_nowait`: raises `QueueFull` on a full queue, else
appends. -/
def PyQueue.put_nowait (q : PyQueue) (message : Msg) : Except PyErr PyQueue :=
  if q.full then .error .queueFull else .ok ⟨q.maxsize, q.items ++ [message]⟩

/-- The inbox created by `subscribe` (message_broadcaster.py line 37):
`queue: asyncio.Queue = asyncio.Queue()` — no `maxsize` argument. -/
def newSubscriberQueue : PyQueue := ⟨0, []⟩

structure MessageBroadcaster where
  queues : List (Key × List PyQueue)
deriving DecidableEq

/-- `subscribe` (lines 34-38): ensure the channel's list exists, then register
a fresh `asyncio.Queue()` for this subscriber. -/
def MessageBroadcaster.subscribe (b : MessageBroadcaster) (chat_key : Key) :
    MessageBroadcaster :=
  let qs := (lookupKey chat_key b.queues).getD []
  ⟨insertKey chat_key (qs ++ [newSubscriberQueue]) b.queues⟩

/-- One delivery inside `publish`'s loop (lines 68-72): `put_nowait`, and on
`asyncio.QueueFull` the message is skipped for that queue (logged). -/
def deliverTo (message : Msg) (q : PyQueue) : PyQueue :=
  match q.put_nowait message with
  | .ok q' => q'
  | .error _ => q

/-- `publish` (lines 55-72): no subscribers — return; otherwise deliver to
every registered queue, dropping only the full ones. -/
def MessageBroadcaster.publish (b : MessageBroadcaster) (chat_key : Key)
    (message : Msg) : MessageBroadcaster :=
  match lookupKey chat_key b.queues with
  | none => b
  | some qs => ⟨insertKey chat_key (qs.map (deliverTo message)) b.queues⟩

/-- `get_subscriber_count` (lines 74-83). -/
def MessageBroadcaster.get_subscriber_count (b : MessageBroadcaster)
    (chat_key : Key) : Nat :=
  ((lookupKey chat_key b.queues).getD []).length

/-- Iterated `put_nowait` (used to exhibit unboundedness of an inbox). -/
def putN (n : Nat) (q : PyQueue) (message : Msg) : Except PyErr PyQueue :=
  match n with
  | 0 => .ok q
  | n + 1 =>
    match q.put_nowait message with
    | .ok q' => putN n q' message
    | .error e => .error e

def bKey : Key := "b"

def mX : Msg := ⟨bKey, "mX", false⟩

/-! ### MessageService (`src/nekro_agent/services/message_service.py`)

Global state (lines 39-43): `self.running_tasks: Dict[str, asyncio.Task]`,
`self.debounce_timers: Dict[str, float]`,
`self.pending_messages: Dict[str, ChatMessage]`.  Task handles are embedded as
numeric task ids; `time.time()` stamps as naturals. -/

structure ChanMaps where
  running_tasks : List (Key × Nat)
  debounce_timers : List (Key × Nat)
  pending_messages : List (Key × Msg)
deriving DecidableEq

/-- Outcome of one `run_agent` call (an external collaborator: asynchronous,
cancellable, may raise). -/
inductive AttemptResult
  | ok
  | fail
  | cancelled
deriving DecidableEq

inductive LoopExit
  | success
  | exhausted
  | cancelled
deriving DecidableEq

/-- The retry loop `for _i in range(3)` of `_run_chat_agent_task`
(lines 177-189), unrolled to its three iterations, given the outcome `rho i`
of the i-th `run_agent` call: success breaks out (`else: break`);
`asyncio.CancelledError` is re-raised immediately (lines 180-183); any other
exception is logged and the loop continues (lines 184-185); the `for`-`else`
(lines 188-189) logs exhaustion.  Returns the number of `run_agent`
invocations made and how the loop exited. -/
def retryRunAgent (rho : Nat → AttemptResult) : Nat × LoopExit :=
  match rho 0 with
  | .ok => (1, .success)
  | .cancelled => (1, .cancelled)
  | .fail =>
    match rho 1 with
    | .ok => (2, .success)
    | .cancelled => (2, .cancelled)
    | .fail =>
      match rho 2 with
      | .ok => (3, .success)
      | .cancelled => (3, .cancelled)
      | .fail => (3, .exhausted)

def emptyStr : String := ""

/-- Truthiness of `message and message.message_id` (lines 172, 199). -/
def msgHasId : Option Msg → Bool
  | none => false
  | some m => !(m.message_id == emptyStr)

/-- Modelled from the spec: `adapter.set_message_reaction` — the presence /
processing-indicator hook (`PresenceHook.setActive`); its implementation
(nekro_agent/adapters/interface, not under src/) is an "optional,
best-effort, fire-and-forget" collaborator invoked "with their own error
isolation (a failure there must never abort the scheduler's own state
transition)": a failing underlying attempt is logged inside the hook and
never re-raised, so the call returns normally for every underlying
outcome. -/
def set_message_reaction (attempt : Except PyErr Unit) : Except PyErr Unit :=
  match attempt with
  | .ok _ => .ok ()
  | .error _ => .ok ()

/-- Modelled from the spec: `stop_sandbox_container`
(nekro_agent/services/sandbox/runner.py, not under src/) — the
`SandboxController.stop` hook: "best-effort, idempotent; failure is logged,
not propagated as a scheduler error".  An underlying failure yields `False`
rather than an exception. -/
def stop_sandbox_container (outcome : Except PyErr Bool) : Bool :=
  match outcome with
  | .ok b => b
  | .error _ => false

/-- The body of `_debounce_task` after its sleep (lines 144-161), acting on
the captured `start_time`.  Line 145 indexes `self.debounce_timers[chat_key]`
directly, so a missing entry raises `KeyError`.  On a stale stamp the handler
returns without acting.  Otherwise it pops the pending message; if none, it
returns; else it creates the agent task (given the fresh handle `newTid`) and
records its handle.  The second component reports the created task's
`message` argument (`None` when the popped message `is_empty()`, line 157),
or `none` when no task was created. -/
def debounceBody (chat_key : Key) (start_time : Nat) (newTid : Nat) (m : ChanMaps) :
    Except PyErr (ChanMaps × Option (Option Msg)) :=
  match lookupKey chat_key m.debounce_timers with
  | none => .error .keyError
  | some t =>
    if start_time ≠ t then .ok (m, none)
    else
      match lookupKey chat_key m.pending_messages with
      | none => .ok (m, none)
      | some final_message =>
        let m' : ChanMaps :=
          { m with
            pending_messages := eraseKey chat_key m.pending_messages,
            running_tasks := insertKey chat_key newTid m.running_tasks }
        .ok (m', some (if final_message.is_empty then none else some final_message))

/-- The `finally` block of `_run_chat_agent_task` (lines 193-210): delete the
channel's running-task entry if present (195-196); reset the processing
indicator when `SESSION_PROCESSING_WITH_EMOJI` and the message has an id
(199-200, a suspension point — the hook is the spec-modelled
`set_message_reaction`); pop the pending message and the debounce timer
(202-203); when a pending message exists, immediately create a new agent task
for it (given the fresh handle `newTid`) and record its handle (206-210).
Returns the updated maps and the re-chained message, if any. -/
def taskFinally (chat_key : Key) (message : Option Msg) (emoji : Bool)
    (hookAttempt : Except PyErr Unit) (newTid : Nat) (m : ChanMaps) :
    Except PyErr (ChanMaps × Option Msg) := do
  let m1 : ChanMaps :=
    if (lookupKey chat_key m.running_tasks).isSome then
      { m with running_tasks := eraseKey chat_key m.running_tasks }
    else m
  if emoji && msgHasId message then
    let _ ← set_message_reaction hookAttempt
  let final_message := lookupKey chat_key m1.pending_messages
  let m2 : ChanMaps :=
    { m1 with
      pending_messages := eraseKey chat_key m1.pending_messages,
      debounce_timers := eraseKey chat_key m1.debounce_timers }
  match final_message with
  | some fm =>
    .ok ({ m2 with running_tasks := insertKey chat_key newTid m2.running_tasks }, some fm)
  | none => .ok (m2, none)

/-- The value `taskFinally` computes when it completes: the hook never raises
(it is spec-modelled with its own error isolation), so the result depends
only on the channel key, the fresh handle and the maps. -/
def taskFinallyResult (chat_key : Key) (newTid : Nat) (m : ChanMaps) :
    ChanMaps × Option Msg :=
  let m1 : ChanMaps :=
    if (lookupKey chat_key m.running_tasks).isSome then
      { m with running_tasks := eraseKey chat_key m.running_tasks }
    else m
  let final_message := lookupKey chat_key m1.pending_messages
  let m2 : ChanMaps :=
    { m1 with
      pending_messages := eraseKey chat_key m1.pending_messages,
      debounce_timers := eraseKey chat_key m1.debounce_timers }
  match final_message with
  | some fm =>
    ({ m2 with running_tasks := insertKey chat_key newTid m2.running_tasks }, some fm)
  | none => (m2, none)

structure RunReport where
  attempts : Nat
  loopExit : LoopExit
  was_cancelled : Bool
  rechained : Option Msg
deriving DecidableEq

/-- `_run_chat_agent_task` (lines 163-210) run to completion: set the
processing indicator (lines 172-173, spec-modelled hook), run the retry loop
on the attempt outcomes `rho`, record cancellation (lines 180-183 mark and
re-raise; the outer handler at 190-192 records it and falls through), and run
the `finally` block. -/
def run_chat_agent_task (chat_key : Key) (message : Option Msg) (emoji : Bool)
    (rho : Nat → AttemptResult) (hookStart hookEnd : Except PyErr Unit)
    (newTid : Nat) (m : ChanMaps) : Except PyErr (ChanMaps × RunReport) := do
  if emoji && msgHasId message then
    let _ ← set_message_reaction hookStart
  let p := retryRunAgent rho
  let was_cancelled := decide (p.2 = LoopExit.cancelled)
  let r ← taskFinally chat_key message emoji hookEnd newTid m
  .ok (r.1, ⟨p.1, p.2, was_cancelled, r.2⟩)

/-- `stop_chat_task` (lines 45-81): (1) pop only the debounce timer
(line 59); (2) stop the sandbox container via the spec-modelled hook
(line 62, which never raises); (3) when the channel has a running,
not-yet-done task, cancel it and await it (lines 68-77) — awaiting delivers
the cancellation at the task's next suspension point, which propagates
through its retry loop and runs its `finally` block (`taskFinally`).  The
entry in `running_tasks` is deliberately not removed here (lines 78-79).
`taskMsg`, `emoji`, `hookEnd`, `newTid` describe the running task being
awaited; `task_done` is `task.done()`.  Returns the updated maps and whether
anything was stopped. -/
def stop_chat_task (chat_key : Key) (sandboxOutcome : Except PyErr Bool)
    (task_done : Bool) (taskMsg : Option Msg) (emoji : Bool)
    (hookEnd : Except PyErr Unit) (newTid : Nat) (m : ChanMaps) :
    Except PyErr (ChanMaps × Bool) := do
  let m1 : ChanMaps := { m with debounce_timers := eraseKey chat_key m.debounce_timers }
  let container_stopped := stop_sandbox_container sandboxOutcome
  let stopped := container_stopped
  match lookupKey chat_key m1.running_tasks with
  | some _ =>
    if task_done then
      .ok (m1, stopped)
    else do
      let r ← taskFinally chat_key taskMsg emoji hookEnd newTid m1
      .ok (r.1, true)
  | none => .ok (m1, stopped)

/-! ### The interleaving machine

Cooperative-concurrency small-step semantics for `MessageService`: a state
holds the three dictionaries, the set of sleeping `_debounce_task` coroutines
(with their captured stamps), the set of live `_run_chat_agent_task`
coroutines, a fresh-task-id counter, the wall clock, and a ghost log of every
agent-task creation.  An agent task is split at its only internal suspension
point after the retry loop: `finishA` (retry loop ends; the `finally` deletes
the running-task entry, lines 193-196, then suspends at
`await adapter.set_message_reaction`, lines 199-200) and `finishB` (the
`finally` resumes and performs lines 202-210).  When the emoji indicator is
off the two steps simply occur adjacently. -/

inductive Phase
  | agent
  | cleanup
deriving DecidableEq

structure ExecTask where
  tid : Nat
  key : Key
  msg : Option Msg
  phase : Phase
deriving DecidableEq

structure Machine where
  maps : ChanMaps
  waiters : List (Key × Nat)
  execs : List ExecTask
  nextTid : Nat
  clock : Nat
  started : List (Key × Option Msg)
deriving DecidableEq

inductive Ev
  | submit (message : Msg) (dt : Nat)
  | wake (chat_key : Key) (start_time : Nat)
  | finishA (tid : Nat)
  | finishB (tid : Nat)
  | stopTimers (chat_key : Key)
deriving DecidableEq

/-- `not task.done()`: the handle still belongs to a live coroutine. -/
def taskNotDone (M : Machine) (tid : Nat) : Bool :=
  M.execs.any (fun e => decide (e.tid = tid))

/-- `schedule_agent_task` (lines 105-130) at time `clock + dt` (`time.time()`
is monotone non-decreasing): record the message as the channel's pending
message, refresh the debounce timer, return at once when the channel already
has a running, not-done task (lines 125-127), else create a debounce task
capturing the current stamp (line 130). -/
def submitStep (message : Msg) (dt : Nat) (M : Machine) : Machine :=
  let chat_key := message.chat_key
  let now := M.clock + dt
  let maps1 : ChanMaps :=
    { M.maps with
      pending_messages := insertKey chat_key message M.maps.pending_messages,
      debounce_timers := insertKey chat_key now M.maps.debounce_timers }
  let M1 : Machine := { M with maps := maps1, clock := now }
  match lookupKey chat_key maps1.running_tasks with
  | some tid =>
    if taskNotDone M tid then M1
    else { M1 with waiters := (chat_key, now) :: M1.waiters }
  | none => { M1 with waiters := (chat_key, now) :: M1.waiters }

def removeFirst (x : Key × Nat) : List (Key × Nat) → List (Key × Nat)
  | [] => []
  | y :: rest => if y = x then rest else y :: removeFirst x rest

/-- A sleeping `_debounce_task` wakes and runs `debounceBody`.  A `KeyError`
(entry removed during the sleep) kills only that coroutine: the scheduler
state is unchanged beyond the waiter's termination. -/
def wakeStep (chat_key : Key) (start_time : Nat) (M : Machine) : Option Machine :=
  if (chat_key, start_time) ∈ M.waiters then
    let waiters' := removeFirst (chat_key, start_time) M.waiters
    match debounceBody chat_key start_time M.nextTid M.maps with
    | .error _ => some { M with waiters := waiters' }
    | .ok (m', none) => some { M with waiters := waiters', maps := m' }
    | .ok (m', some msgArg) =>
      some { M with
        waiters := waiters',
        maps := m',
        execs := M.execs ++ [⟨M.nextTid, chat_key, msgArg, Phase.agent⟩],
        nextTid := M.nextTid + 1,
        started := M.started ++ [(chat_key, msgArg)] }
  else none

def findExec (tid : Nat) (M : Machine) : Option ExecTask :=
  M.execs.find? (fun e => decide (e.tid = tid))

/-- An agent task's retry loop ends and the first half of its `finally` runs
(lines 193-196): delete the channel's running-task entry if present, then
suspend at `await adapter.set_message_reaction` (lines 199-200). -/
def finishAStep (tid : Nat) (M : Machine) : Option Machine :=
  match findExec tid M with
  | some e =>
    if e.phase = Phase.agent then
      some { M with
        execs := M.execs.map
          (fun e' => if e'.tid = tid then { e' with phase := Phase.cleanup } else e'),
        maps :=
          if (lookupKey e.key M.maps.running_tasks).isSome then
            { M.maps with running_tasks := eraseKey e.key M.maps.running_tasks }
          else M.maps }
    else none
  | none => none

/-- The second half of the `finally` (lines 202-210): pop the pending message
and the debounce timer; when a pending message exists, immediately create a
new agent task for it and record its handle; the coroutine then ends. -/
def finishBStep (tid : Nat) (M : Machine) : Option Machine :=
  match findExec tid M with
  | some e =>
    if e.phase = Phase.cleanup then
      let execs' := M.execs.filter (fun e' => decide (e'.tid ≠ tid))
      let final_message := lookupKey e.key M.maps.pending_messages
      let m2 : ChanMaps :=
        { M.maps with
          pending_messages := eraseKey e.key M.maps.pending_messages,
          debounce_timers := eraseKey e.key M.maps.debounce_timers }
      match final_message with
      | some fm =>
        some { M with
          maps := { m2 with running_tasks := insertKey e.key M.nextTid m2.running_tasks },
          execs := execs' ++ [⟨M.nextTid, e.key, some fm, Phase.agent⟩],
          nextTid := M.nextTid + 1,
          started := M.started ++ [(e.key, some fm)] }
      | none => some { M with maps := m2, execs := execs' }
    else none
  | none => none

/-- Step 1 of `stop_chat_task` (line 59): pop only the debounce timer. -/
def stopTimersStep (chat_key : Key) (M : Machine) : Machine :=
  { M with maps := { M.maps with debounce_timers := eraseKey chat_key M.maps.debounce_timers } }

def machineStep (M : Machine) : Ev → Option Machine
  | .submit message dt => some (submitStep message dt M)
  | .wake chat_key start_time => wakeStep chat_key start_time M
  | .finishA tid => finishAStep tid M
  | .finishB tid => finishBStep tid M
  | .stopTimers chat_key => some (stopTimersStep chat_key M)

def runEvents (M : Machine) : List Ev → Option Machine
  | [] => some M
  | e :: evs =>
    match machineStep M e with
    | some M1 => runEvents M1 evs
    | none => none

/-- Number of agent tasks for `chat_key` currently executing their agent
phase (created, retry loop not yet finished). -/
def runningAgentCount (M : Machine) (chat_key : Key) : Nat :=
  (M.execs.filter (fun e => decide (e.key = chat_key ∧ e.phase = Phase.agent))).length

def initMachine : Machine := ⟨⟨[], [], []⟩, [], [], 0, 0, []⟩

def gKey : Key := "g"

def e1msg : Msg := ⟨gKey, "m1", false⟩

def e2msg : Msg := ⟨gKey, "m2", false⟩

def e3msg : Msg := ⟨gKey, "m3", false⟩

/-- The interleaving refuting single-flight: E1 is submitted and its debounce
fires (task 0); task 0 finishes its loop, deletes its handle and suspends at
the presence hook; E2 is submitted while the handle is absent, its debounce
fires and starts task 1; E3 is submitted while task 1 runs (recorded as
pending, no debounce task); task 0's `finally` then resumes, steals pending
E3 and re-chains task 2 — tasks 1 and 2 now run concurrently. -/
def c1Trace : List Ev :=
  [.submit e1msg 1, .wake gKey 1, .finishA 0,
   .submit e2msg 1, .wake gKey 2,
   .submit e3msg 1, .finishB 0]

/-- Events internal to the scheduler for one already-submitted burst: debounce
wake-ups and agent-task completions (no further submissions, no cancels). -/
def isSchedulerInternal : Ev → Bool
  | .wake _ _ => true
  | .finishA _ => true
  | .finishB _ => true
  | .submit _ _ => false
  | .stopTimers _ => false

/-- The machine after E1, E2, E3 are submitted to an idle channel, each
before the previous debounce window elapsed (gaps `d1`, `d2`, `d3`). -/
def submits3 (d1 d2 d3 : Nat) : Machine :=
  submitStep e3msg d3 (submitStep e2msg d2 (submitStep e1msg d1 initMachine))

def canonicalWakes : List Ev := [.wake gKey 1, .wake gKey 2, .wake gKey 3]

/-- Invariant driving the coalescing claim: all sleeping debounce tasks and
live agent tasks belong to the burst's channel, and either no agent task was
ever created and E3 is still the pending message, or exactly one was created,
it carries E3, and no pending message remains. -/
def CoalesceInv (M : Machine) : Prop :=
  (∀ w ∈ M.waiters, w.1 = gKey) ∧
  (∀ e ∈ M.execs, e.key = gKey) ∧
  ((M.started = [] ∧ M.maps.pending_messages = [(gKey, e3msg)] ∧ M.execs = []) ∨
   (M.started = [(gKey, some e3msg)] ∧ lookupKey gKey M.maps.pending_messages = none))

/-! ## Theorems -/

/-! ### Association-list lemmas -/

theorem lookupKey_insertKey_self {α : Type} (k : Key) (v : α) (l : List (Key × α)) :
    lookupKey k (insertKey k v l) = some v := by
  induction l with
  | nil => simp [insertKey, lookupKey]
  | cons hd tl ih =>
    obtain ⟨a, b⟩ := hd
    by_cases h : a = k
    · simp [insertKey, if_pos h, lookupKey]
    · simp only [insertKey, if_neg h, lookupKey]
      exact ih

theorem lookupKey_insertKey_ne {α : Type} (k k' : Key) (v : α) (l : List (Key × α))
    (h : k' ≠ k) : lookupKey k' (insertKey k v l) = lookupKey k' l := by
  induction l with
  | nil =>
    simp only [insertKey, lookupKey]
    rw [if_neg (fun he : k = k' => h he.symm)]
  | cons hd tl ih =>
    obtain ⟨a, b⟩ := hd
    by_cases hh : a = k
    · simp only [insertKey, if_pos hh, lookupKey]
      rw [if_neg (fun he : k = k' => h he.symm), if_neg (fun he : a = k' => h (he.symm.trans hh))]
    · simp only [insertKey, if_neg hh, lookupKey]
      by_cases hk : a = k'
      · rw [if_pos hk, if_pos hk]
      · rw [if_neg hk, if_neg hk, ih]

theorem eraseKey_of_lookup_none {α : Type} (k : Key) (l : List (Key × α))
    (h : lookupKey k l = none) : eraseKey k l = l := by
  induction l with
  | nil => rfl
  | cons hd tl ih =>
    obtain ⟨a, b⟩ := hd
    simp only [lookupKey] at h
    by_cases hh : a = k
    · rw [if_pos hh] at h
      exact absurd h (by simp)
    · rw [if_neg hh] at h
      simp only [eraseKey, if_neg hh]
      rw [ih h]

theorem lookupKey_eq_none_of_not_mem {α : Type} (k : Key) (l : List (Key × α))
    (h : k ∉ l.map Prod.fst) : lookupKey k l = none := by
  induction l with
  | nil => rfl
  | cons hd tl ih =>
    simp only [List.map_cons, List.mem_cons, not_or] at h
    simp only [lookupKey]
    rw [if_neg (fun he : hd.1 = k => h.1 he.symm), ih h.2]

theorem lookupKey_eraseKey_self {α : Type} (k : Key) (l : List (Key × α))
    (h : NodupKeys l) : lookupKey k (eraseKey k l) = none := by
  induction l with
  | nil => rfl
  | cons hd tl ih =>
    unfold NodupKeys at h
    simp only [List.map_cons, List.nodup_cons] at h
    obtain ⟨a, b⟩ := hd
    by_cases hh : a = k
    · simp only [eraseKey, if_pos hh]
      exact lookupKey_eq_none_of_not_mem k tl (hh ▸ h.1)
    · simp only [eraseKey, if_neg hh, lookupKey]
      exact ih h.2

theorem lookupKey_eraseKey_ne {α : Type} (k k' : Key) (l : List (Key × α))
    (h : k' ≠ k) : lookupKey k' (eraseKey k l) = lookupKey k' l := by
  induction l with
  | nil => rfl
  | cons hd tl ih =>
    obtain ⟨a, b⟩ := hd
    by_cases hh : a = k
    · simp only [eraseKey, if_pos hh, lookupKey]
      rw [if_neg (fun he : a = k' => h (he.symm.trans hh))]
    · simp only [eraseKey, if_neg hh, lookupKey]
      by_cases hk : a = k'
      · rw [if_pos hk, if_pos hk]
      · rw [if_neg hk, if_neg hk, ih]

/-! ### Quota theorems (claims C9, C10) -/

/-- C9: daily quota expiry.  After `set_boost` on day `D` with amount `n`,
`get_boost` on day `D` returns `n`, `get_boost` on any later day `Dlater`
returns 0, and `add_boost m` on day `Dlater` returns `m` exactly (starting
from 0) while storing a record stamped `Dlater`.  `get_boost` is a pure read
(it returns only an integer and no updated service), so reads never mutate the
stored record. -/
theorem quota_daily_expiry (s : QuotaService) (K : Key) (n m : Int) (D Dlater : String)
    (h : Dlater ≠ D) :
    (s.set_boost D K n).get_boost D K = n ∧
    (s.set_boost D K n).get_boost Dlater K = 0 ∧
    ((s.set_boost D K n).add_boost Dlater K m).2 = m ∧
    lookupKey K ((s.set_boost D K n).add_boost Dlater K m).1.daily_boosts =
      some ⟨Dlater, m⟩ := by
  have hlook : lookupKey K (insertKey K (⟨D, n⟩ : QuotaInfo) s.daily_boosts) =
      some ⟨D, n⟩ := lookupKey_insertKey_self _ _ _
  have hDD : ¬ (D = Dlater) := fun hd => h hd.symm
  refine ⟨?_, ?_, ?_, ?_⟩
  · simp [QuotaService.get_boost, QuotaService.set_boost, hlook]
  · simp [QuotaService.get_boost, QuotaService.set_boost, hlook, hDD]
  · simp [QuotaService.add_boost, QuotaService.get_boost, QuotaService.set_boost, hlook, hDD]
  · simp only [QuotaService.add_boost, QuotaService.get_boost, QuotaService.set_boost, hlook]
    simp [hDD, lookupKey_insertKey_self]

theorem quota_daily_expiry_witness :
    dayAfter ≠ dayD ∧
    ((⟨[]⟩ : QuotaService).set_boost dayD kExample 10).get_boost dayD kExample = 10 ∧
    ((⟨[]⟩ : QuotaService).set_boost dayD kExample 10).get_boost dayAfter kExample = 0 ∧
    (((⟨[]⟩ : QuotaService).set_boost dayD kExample 10).add_boost dayAfter kExample 3).2 = 3 ∧
    lookupKey kExample
      (((⟨[]⟩ : QuotaService).set_boost dayD kExample 10).add_boost dayAfter kExample 3).1.daily_boosts =
      some ⟨dayAfter, 3⟩ := by
  have h : dayAfter ≠ dayD := by decide
  have := quota_daily_expiry (⟨[]⟩ : QuotaService) kExample 10 3 dayD dayAfter h
  exact ⟨h, this.1, this.2.1, this.2.2.1, this.2.2.2⟩

/-- C10: quota algebra at the public interface, current date held fixed.
`get_boost` after `set_boost a` returns `a`; `add_boost b` returns
get-boost-before plus `b`, and that value is what `get_boost` returns
afterwards; `clear_boost` is total (also with no stored record: `pop` with a
default leaves the state unchanged) and afterwards `get_boost` returns 0. -/
theorem quota_algebra (s : QuotaService) (K : Key) (a b : Int) (today : String)
    (hnd : NodupKeys s.daily_boosts) :
    (s.set_boost today K a).get_boost today K = a ∧
    (s.add_boost today K b).2 = s.get_boost today K + b ∧
    (s.add_boost today K b).1.get_boost today K = (s.add_boost today K b).2 ∧
    (s.clear_boost K).get_boost today K = 0 ∧
    (lookupKey K s.daily_boosts = none → s.clear_boost K = s) := by
  refine ⟨?_, ?_, ?_, ?_, ?_⟩
  · simp [QuotaService.get_boost, QuotaService.set_boost, lookupKey_insertKey_self]
  · simp [QuotaService.add_boost]
  · simp [QuotaService.add_boost, QuotaService.get_boost, QuotaService.set_boost,
      lookupKey_insertKey_self]
  · simp [QuotaService.get_boost, QuotaService.clear_boost,
      lookupKey_eraseKey_self K s.daily_boosts hnd]
  · intro hnone
    simp [QuotaService.clear_boost, eraseKey_of_lookup_none K s.daily_boosts hnone]

theorem quota_algebra_witness :
    NodupKeys (⟨[(kExample, ⟨dayD, 4⟩)]⟩ : QuotaService).daily_boosts ∧
    ((⟨[(kExample, ⟨dayD, 4⟩)]⟩ : QuotaService).set_boost dayD kExample 7).get_boost dayD kExample = 7 ∧
    ((⟨[(kExample, ⟨dayD, 4⟩)]⟩ : QuotaService).add_boost dayD kExample 2).2 =
      (⟨[(kExample, ⟨dayD, 4⟩)]⟩ : QuotaService).get_boost dayD kExample + 2 ∧
    ((⟨[(kExample, ⟨dayD, 4⟩)]⟩ : QuotaService).add_boost dayD kExample 2).1.get_boost dayD kExample =
      ((⟨[(kExample, ⟨dayD, 4⟩)]⟩ : QuotaService).add_boost dayD kExample 2).2 ∧
    ((⟨[(kExample, ⟨dayD, 4⟩)]⟩ : QuotaService).clear_boost kExample).get_boost dayD kExample = 0 ∧
    (lookupKey kExample (⟨[(kExample, ⟨dayD, 4⟩)]⟩ : QuotaService).daily_boosts = none →
      (⟨[(kExample, ⟨dayD, 4⟩)]⟩ : QuotaService).clear_boost kExample =
        (⟨[(kExample, ⟨dayD, 4⟩)]⟩ : QuotaService)) := by
  have hnd : NodupKeys (⟨[(kExample, ⟨dayD, 4⟩)]⟩ : QuotaService).daily_boosts := by decide
  have := quota_algebra (⟨[(kExample, ⟨dayD, 4⟩)]⟩ : QuotaService) kExample 7 2 dayD hnd
  exact ⟨hnd, this.1, this.2.1, this.2.2.1, this.2.2.2.1, this.2.2.2.2⟩

/-! ### Broadcaster theorems (claim C6) -/

set_option maxRecDepth 8000 in
/-- C6 counterexample: the inbox `subscribe` creates is NOT of bounded
capacity.  `subscribe` registers exactly `asyncio.Queue()` (maxsize 0, the
unbounded default); such a queue is still not full after 100 insertions and
accepts every one of them. -/
theorem broadcaster_bounded_counterexample :
    (MessageBroadcaster.subscribe ⟨[]⟩ bKey).queues = [(bKey, [newSubscriberQueue])] ∧
    newSubscriberQueue.maxsize = 0 ∧
    putN 100 newSubscriberQueue mX = .ok ⟨0, List.replicate 100 mX⟩ ∧
    PyQueue.full ⟨0, List.replicate 100 mX⟩ = false := by
  refine ⟨rfl, rfl, ?_, rfl⟩
  rfl

/-- C6 amended: subscriber inboxes are created unbounded (`asyncio.Queue()`
with default maxsize 0, never full); `publish` delivers with `put_nowait`,
and a `QueueFull` on one subscriber's inbox drops only that delivery while
every other (non-full) subscriber still receives the message, without
blocking the publisher. -/
theorem broadcaster_unbounded_drop_on_full (b : MessageBroadcaster) (K : Key)
    (message : Msg) (qs : List PyQueue) (hqs : lookupKey K b.queues = some qs) :
    (b.subscribe K).queues = insertKey K (qs ++ [newSubscriberQueue]) b.queues ∧
    newSubscriberQueue.maxsize = 0 ∧
    (b.publish K message).queues = insertKey K (qs.map (deliverTo message)) b.queues ∧
    (∀ q ∈ qs, (q.full = true → deliverTo message q = q) ∧
      (q.full = false → deliverTo message q = ⟨q.maxsize, q.items ++ [message]⟩)) := by
  refine ⟨?_, rfl, ?_, ?_⟩
  · simp [MessageBroadcaster.subscribe, hqs]
  · simp [MessageBroadcaster.publish, hqs]
  · intro q _
    constructor
    · intro hfull
      simp [deliverTo, PyQueue.put_nowait, hfull]
    · intro hfull
      simp [deliverTo, PyQueue.put_nowait, hfull]

theorem broadcaster_unbounded_drop_on_full_witness :
    lookupKey bKey (⟨[(bKey, [⟨1, [mX]⟩, ⟨0, []⟩])]⟩ : MessageBroadcaster).queues =
      some [⟨1, [mX]⟩, ⟨0, []⟩] ∧
    ((⟨[(bKey, [⟨1, [mX]⟩, ⟨0, []⟩])]⟩ : MessageBroadcaster).subscribe bKey).queues =
      insertKey bKey ([⟨1, [mX]⟩, ⟨0, []⟩] ++ [newSubscriberQueue])
        (⟨[(bKey, [⟨1, [mX]⟩, ⟨0, []⟩])]⟩ : MessageBroadcaster).queues ∧
    newSubscriberQueue.maxsize = 0 ∧
    ((⟨[(bKey, [⟨1, [mX]⟩, ⟨0, []⟩])]⟩ : MessageBroadcaster).publish bKey mX).queues =
      insertKey bKey ([⟨1, [mX]⟩, ⟨0, []⟩].map (deliverTo mX))
        (⟨[(bKey, [⟨1, [mX]⟩, ⟨0, []⟩])]⟩ : MessageBroadcaster).queues ∧
    (∀ q ∈ [(⟨1, [mX]⟩ : PyQueue), ⟨0, []⟩], (q.full = true → deliverTo mX q = q) ∧
      (q.full = false → deliverTo mX q = ⟨q.maxsize, q.items ++ [mX]⟩)) := by
  have hqs : lookupKey bKey (⟨[(bKey, [⟨1, [mX]⟩, ⟨0, []⟩])]⟩ : MessageBroadcaster).queues =
      some [⟨1, [mX]⟩, ⟨0, []⟩] := rfl
  have := broadcaster_unbounded_drop_on_full ⟨[(bKey, [⟨1, [mX]⟩, ⟨0, []⟩])]⟩ bKey mX
    [⟨1, [mX]⟩, ⟨0, []⟩] hqs
  exact ⟨hqs, this.1, this.2.1, this.2.2.1, this.2.2.2⟩

/-! ### Scheduler bridge lemmas -/

theorem taskFinally_ok (chat_key : Key) (message : Option Msg) (emoji : Bool)
    (hookAttempt : Except PyErr Unit) (newTid : Nat) (m : ChanMaps) :
    taskFinally chat_key message emoji hookAttempt newTid m =
      .ok (taskFinallyResult chat_key newTid m) := by
  by_cases hc : (emoji && msgHasId message) = true
  · cases hookAttempt <;>
      simp only [taskFinally, taskFinallyResult, hc, if_true, set_message_reaction] <;>
      split <;> rfl
  · rw [Bool.not_eq_true] at hc
    cases hookAttempt <;>
      simp only [taskFinally, taskFinallyResult, hc, Bool.false_eq_true, if_false] <;>
      split <;> rfl

theorem run_chat_agent_task_ok (chat_key : Key) (message : Option Msg) (emoji : Bool)
    (rho : Nat → AttemptResult) (hookStart hookEnd : Except PyErr Unit)
    (newTid : Nat) (m : ChanMaps) :
    run_chat_agent_task chat_key message emoji rho hookStart hookEnd newTid m =
      .ok ((taskFinallyResult chat_key newTid m).1,
        ⟨(retryRunAgent rho).1, (retryRunAgent rho).2,
         decide ((retryRunAgent rho).2 = LoopExit.cancelled),
         (taskFinallyResult chat_key newTid m).2⟩) := by
  by_cases hc : (emoji && msgHasId message) = true
  · cases hookStart <;>
      simp only [run_chat_agent_task, hc, if_true, set_message_reaction,
        taskFinally_ok] <;>
      rfl
  · rw [Bool.not_eq_true] at hc
    cases hookStart <;>
      simp only [run_chat_agent_task, hc, Bool.false_eq_true, if_false,
        taskFinally_ok] <;>
      rfl


theorem taskFinallyResult_spec (chat_key : Key) (newTid : Nat) (m : ChanMaps)
    (hnd1 : NodupKeys m.running_tasks) (hnd2 : NodupKeys m.pending_messages)
    (hnd3 : NodupKeys m.debounce_timers) :
    (taskFinallyResult chat_key newTid m).2 = lookupKey chat_key m.pending_messages ∧
    lookupKey chat_key (taskFinallyResult chat_key newTid m).1.pending_messages = none ∧
    lookupKey chat_key (taskFinallyResult chat_key newTid m).1.debounce_timers = none ∧
    (∀ pm, lookupKey chat_key m.pending_messages = some pm →
      lookupKey chat_key (taskFinallyResult chat_key newTid m).1.running_tasks = some newTid) ∧
    (lookupKey chat_key m.pending_messages = none →
      lookupKey chat_key (taskFinallyResult chat_key newTid m).1.running_tasks = none) := by
  have hpe : lookupKey chat_key (eraseKey chat_key m.pending_messages) = none :=
    lookupKey_eraseKey_self _ _ hnd2
  have hde : lookupKey chat_key (eraseKey chat_key m.debounce_timers) = none :=
    lookupKey_eraseKey_self _ _ hnd3
  have hre : lookupKey chat_key (eraseKey chat_key m.running_tasks) = none :=
    lookupKey_eraseKey_self _ _ hnd1
  by_cases hrt : (lookupKey chat_key m.running_tasks).isSome
  · cases hfm : lookupKey chat_key m.pending_messages with
    | none =>
      refine ⟨?_, ?_, ?_, ?_, ?_⟩ <;>
        simp [taskFinallyResult, hrt, hfm, hpe, hde, hre]
    | some pm0 =>
      refine ⟨?_, ?_, ?_, ?_, ?_⟩ <;>
        simp [taskFinallyResult, hrt, hfm, hpe, hde, lookupKey_insertKey_self]
  · have hrn : lookupKey chat_key m.running_tasks = none := by
      cases h2 : lookupKey chat_key m.running_tasks with
      | none => rfl
      | some v => rw [h2] at hrt; exact absurd rfl hrt
    cases hfm : lookupKey chat_key m.pending_messages with
    | none =>
      refine ⟨?_, ?_, ?_, ?_, ?_⟩ <;>
        simp [taskFinallyResult, hrt, hfm, hpe, hde, hrn]
    | some pm0 =>
      refine ⟨?_, ?_, ?_, ?_, ?_⟩ <;>
        simp [taskFinallyResult, hrt, hfm, hpe, hde, lookupKey_insertKey_self]

/-! ### Scheduler claim theorems -/

/-- C1 (the code violates it): a reachable interleaving with TWO agent tasks
concurrently executing their agent phase for one channel.  E1 is submitted
and its debounce fires (task 0); task 0 ends its retry loop, deletes its
running-task entry and suspends at the presence hook; E2 is submitted while
the entry is absent, its debounce fires and starts task 1; E3 is submitted
while task 1 runs and is recorded as pending; task 0's `finally` then
resumes, steals pending E3 and re-chains task 2 — tasks 1 (on E2) and 2
(on E3) now run concurrently, refuting "at most one agent-execution task is
running for that channel at any instant". -/
theorem single_flight_violation :
    (runEvents initMachine c1Trace).map (fun M => runningAgentCount M gKey) = some 2 ∧
    (runEvents initMachine c1Trace).map (fun M => M.execs.map ExecTask.msg) =
      some [some e2msg, some e3msg] :=
  ⟨rfl, rfl⟩

/-- C5 counterexample: a debounce wake-up that finds the channel's stamp
entry removed entirely (as `stop_chat_task` line 59 or the completion
handler line 203 do during the sleep) raises `KeyError` from the direct
indexing `self.debounce_timers[chat_key]` on line 145 — it does not exit
silently, refuting the claim's "without raising any error". -/
theorem stale_debounce_keyerror_counterexample :
    debounceBody gKey 5 0 ⟨[], [], []⟩ = .error PyErr.keyError := rfl

/-- C5 amended: a debounce wake-up whose captured stamp differs from the
channel's still-present stamp exits without acting, without mutating any
state and without an error; but when the stamp entry has been removed
entirely during the wait, the lookup raises `KeyError` — the handler still
starts nothing and mutates nothing, yet it terminates with an error rather
than silently. -/
theorem stale_debounce_behavior (chat_key : Key) (start_time t newTid : Nat)
    (m : ChanMaps) :
    (lookupKey chat_key m.debounce_timers = some t → start_time ≠ t →
      debounceBody chat_key start_time newTid m = .ok (m, none)) ∧
    (lookupKey chat_key m.debounce_timers = none →
      debounceBody chat_key start_time newTid m = .error PyErr.keyError) := by
  constructor
  · intro hl hne
    simp [debounceBody, hl, hne]
  · intro hl
    simp [debounceBody, hl]

theorem stale_debounce_behavior_witness :
    (lookupKey gKey (⟨[], [(gKey, 7)], []⟩ : ChanMaps).debounce_timers = some 7 ∧
     (5 : Nat) ≠ 7 ∧
     debounceBody gKey 5 0 ⟨[], [(gKey, 7)], []⟩ = .ok (⟨[], [(gKey, 7)], []⟩, none)) ∧
    (lookupKey gKey (⟨[], [], []⟩ : ChanMaps).debounce_timers = none ∧
     debounceBody gKey 5 0 ⟨[], [], []⟩ = .error PyErr.keyError) := by
  have h1 := stale_debounce_behavior gKey 5 7 0 ⟨[], [(gKey, 7)], []⟩
  have h2 := stale_debounce_behavior gKey 5 7 0 ⟨[], [], []⟩
  exact ⟨⟨rfl, by decide, h1.1 rfl (by decide)⟩, ⟨rfl, h2.2 rfl⟩⟩

/-- C3: an agent-runner failing on every attempt is invoked exactly 3 times,
the exhaustion only ends the loop through the `for`-`else` (the task returns
normally — the result is `.ok`, no exception escapes), the completion path
clears the channel's running-task entry, and with no pending message the
channel ends with no running-task entry, available for the next
submission. -/
theorem retry_bound_three_attempts (rho : Nat → AttemptResult)
    (hfail : ∀ i, i < 3 → rho i = AttemptResult.fail)
    (chat_key : Key) (message : Option Msg) (emoji : Bool)
    (hookStart hookEnd : Except PyErr Unit) (newTid : Nat) (m : ChanMaps)
    (hpend : lookupKey chat_key m.pending_messages = none)
    (hnd1 : NodupKeys m.running_tasks) (hnd2 : NodupKeys m.pending_messages)
    (hnd3 : NodupKeys m.debounce_timers) :
    retryRunAgent rho = (3, LoopExit.exhausted) ∧
    run_chat_agent_task chat_key message emoji rho hookStart hookEnd newTid m =
      .ok ((taskFinallyResult chat_key newTid m).1,
        ⟨3, LoopExit.exhausted, false, none⟩) ∧
    lookupKey chat_key (taskFinallyResult chat_key newTid m).1.running_tasks = none := by
  have hloop : retryRunAgent rho = (3, LoopExit.exhausted) := by
    simp [retryRunAgent, hfail 0 (by norm_num), hfail 1 (by norm_num),
      hfail 2 (by norm_num)]
  have hs := taskFinallyResult_spec chat_key newTid m hnd1 hnd2 hnd3
  have h2 : (taskFinallyResult chat_key newTid m).2 = none := hs.1.trans hpend
  refine ⟨hloop, ?_, hs.2.2.2.2 hpend⟩
  rw [run_chat_agent_task_ok, hloop, h2]
  rfl

theorem retry_bound_three_attempts_witness :
    (∀ i, i < 3 → (fun _ => AttemptResult.fail) i = AttemptResult.fail) ∧
    lookupKey gKey (⟨[(gKey, 0)], [], []⟩ : ChanMaps).pending_messages = none ∧
    retryRunAgent (fun _ => AttemptResult.fail) = (3, LoopExit.exhausted) ∧
    run_chat_agent_task gKey none false (fun _ => AttemptResult.fail)
        (.ok ()) (.ok ()) 5 ⟨[(gKey, 0)], [], []⟩ =
      .ok ((taskFinallyResult gKey 5 ⟨[(gKey, 0)], [], []⟩).1,
        ⟨3, LoopExit.exhausted, false, none⟩) ∧
    lookupKey gKey (taskFinallyResult gKey 5 ⟨[(gKey, 0)], [], []⟩).1.running_tasks =
      none := by
  have h := retry_bound_three_attempts (fun _ => AttemptResult.fail) (fun i _ => rfl)
    gKey none false (.ok ()) (.ok ()) 5 ⟨[(gKey, 0)], [], []⟩ rfl
    (by decide) (by decide) (by decide)
  exact ⟨fun i _ => rfl, rfl, h.1, h.2.1, h.2.2⟩

/-- C4: cancellation during attempt `j` exits the retry loop at once
(`j + 1` invocations, loop exit `cancelled` — not consumed as a retryable
failure) and the completion handler still runs: the task's entry handling
happens, the pending message accumulated during the run is taken and
re-chained into a new agent task whose handle `newTid` is recorded, and the
debounce bookkeeping is cleared. -/
theorem cancellation_not_retried (rho : Nat → AttemptResult) (j : Nat) (hj : j < 3)
    (hcanc : rho j = AttemptResult.cancelled)
    (hprev : ∀ i, i < j → rho i = AttemptResult.fail)
    (chat_key : Key) (message : Option Msg) (emoji : Bool)
    (hookStart hookEnd : Except PyErr Unit) (newTid : Nat) (m : ChanMaps)
    (pm : Msg) (hpend : lookupKey chat_key m.pending_messages = some pm)
    (hnd1 : NodupKeys m.running_tasks) (hnd2 : NodupKeys m.pending_messages)
    (hnd3 : NodupKeys m.debounce_timers) :
    retryRunAgent rho = (j + 1, LoopExit.cancelled) ∧
    run_chat_agent_task chat_key message emoji rho hookStart hookEnd newTid m =
      .ok ((taskFinallyResult chat_key newTid m).1,
        ⟨j + 1, LoopExit.cancelled, true, some pm⟩) ∧
    lookupKey chat_key (taskFinallyResult chat_key newTid m).1.running_tasks =
      some newTid ∧
    lookupKey chat_key (taskFinallyResult chat_key newTid m).1.pending_messages = none ∧
    lookupKey chat_key (taskFinallyResult chat_key newTid m).1.debounce_timers =
      none := by
  have hloop : retryRunAgent rho = (j + 1, LoopExit.cancelled) := by
    interval_cases j
    · simp [retryRunAgent, hcanc]
    · simp [retryRunAgent, hprev 0 (by norm_num), hcanc]
    · simp [retryRunAgent, hprev 0 (by norm_num), hprev 1 (by norm_num), hcanc]
  have hs := taskFinallyResult_spec chat_key newTid m hnd1 hnd2 hnd3
  have h2 : (taskFinallyResult chat_key newTid m).2 = some pm := hs.1.trans hpend
  refine ⟨hloop, ?_, hs.2.2.2.1 pm hpend, hs.2.1, hs.2.2.1⟩
  rw [run_chat_agent_task_ok, hloop, h2]
  rfl

theorem cancellation_not_retried_witness :
    ((1 : Nat) < 3 ∧
     (fun i => if i = 0 then AttemptResult.fail else AttemptResult.cancelled) 1 =
       AttemptResult.cancelled ∧
     lookupKey gKey (⟨[(gKey, 0)], [(gKey, 9)], [(gKey, e3msg)]⟩ : ChanMaps).pending_messages =
       some e3msg) ∧
    retryRunAgent (fun i => if i = 0 then AttemptResult.fail else AttemptResult.cancelled) =
      (2, LoopExit.cancelled) ∧
    run_chat_agent_task gKey none false
        (fun i => if i = 0 then AttemptResult.fail else AttemptResult.cancelled)
        (.ok ()) (.ok ()) 5 ⟨[(gKey, 0)], [(gKey, 9)], [(gKey, e3msg)]⟩ =
      .ok ((taskFinallyResult gKey 5 ⟨[(gKey, 0)], [(gKey, 9)], [(gKey, e3msg)]⟩).1,
        ⟨2, LoopExit.cancelled, true, some e3msg⟩) ∧
    lookupKey gKey
        (taskFinallyResult gKey 5 ⟨[(gKey, 0)], [(gKey, 9)], [(gKey, e3msg)]⟩).1.running_tasks =
      some 5 ∧
    lookupKey gKey
        (taskFinallyResult gKey 5 ⟨[(gKey, 0)], [(gKey, 9)], [(gKey, e3msg)]⟩).1.pending_messages =
      none ∧
    lookupKey gKey
        (taskFinallyResult gKey 5 ⟨[(gKey, 0)], [(gKey, 9)], [(gKey, e3msg)]⟩).1.debounce_timers =
      none := by
  have h := cancellation_not_retried
    (fun i => if i = 0 then AttemptResult.fail else AttemptResult.cancelled) 1
    (by norm_num) rfl (by intro i hi; interval_cases i; rfl)
    gKey none false (.ok ()) (.ok ()) 5 ⟨[(gKey, 0)], [(gKey, 9)], [(gKey, e3msg)]⟩
    e3msg rfl (by decide) (by decide) (by decide)
  exact ⟨⟨by norm_num, rfl, rfl⟩, h.1, h.2.1, h.2.2.1, h.2.2.2.1, h.2.2.2.2⟩

/-- C7: a failure of the sandbox-stop hook does not block cancellation.  The
hook is spec-modelled (`stop_sandbox_container` is not under src/): its own
failure is logged and yields `False`, so `stop_chat_task` behaves identically
to a benign `False` return, and when the channel has a running, not-done
task, the scheduler still cancels and awaits it — the result is exactly the
awaited task's completion (`taskFinallyResult` applied after the timer pop)
with `stopped = true`. -/
theorem sandbox_stop_failure_isolated (chat_key : Key) (err : PyErr)
    (taskMsg : Option Msg) (emoji : Bool) (hookEnd : Except PyErr Unit)
    (newTid : Nat) (m : ChanMaps) :
    stop_chat_task chat_key (.error err) false taskMsg emoji hookEnd newTid m =
      stop_chat_task chat_key (.ok false) false taskMsg emoji hookEnd newTid m ∧
    ((lookupKey chat_key m.running_tasks).isSome →
      stop_chat_task chat_key (.error err) false taskMsg emoji hookEnd newTid m =
        .ok ((taskFinallyResult chat_key newTid
          { m with debounce_timers := eraseKey chat_key m.debounce_timers }).1,
          true)) := by
  constructor
  · rfl
  · intro hsome
    obtain ⟨tid, hlk⟩ := Option.isSome_iff_exists.mp hsome
    simp only [stop_chat_task, hlk, taskFinally_ok, stop_sandbox_container]
    rfl

theorem sandbox_stop_failure_isolated_witness :
    stop_chat_task gKey (.error PyErr.queueFull) false none false (.ok ()) 5
        ⟨[(gKey, 0)], [(gKey, 9)], []⟩ =
      stop_chat_task gKey (.ok false) false none false (.ok ()) 5
        ⟨[(gKey, 0)], [(gKey, 9)], []⟩ ∧
    ((lookupKey gKey (⟨[(gKey, 0)], [(gKey, 9)], []⟩ : ChanMaps).running_tasks).isSome ∧
     stop_chat_task gKey (.error PyErr.queueFull) false none false (.ok ()) 5
        ⟨[(gKey, 0)], [(gKey, 9)], []⟩ =
      .ok ((taskFinallyResult gKey 5
        { (⟨[(gKey, 0)], [(gKey, 9)], []⟩ : ChanMaps) with
          debounce_timers := eraseKey gKey (⟨[(gKey, 0)], [(gKey, 9)], []⟩ : ChanMaps).debounce_timers }).1,
        true)) := by
  have h := sandbox_stop_failure_isolated gKey PyErr.queueFull none false (.ok ()) 5
    ⟨[(gKey, 0)], [(gKey, 9)], []⟩
  exact ⟨h.1, by decide, h.2 (by decide)⟩

/-- C8: presence-hook failures never abort the completion handler.  The hook
is spec-modelled (`adapter.set_message_reaction` is not under src/): invoked
fire-and-forget with its own error isolation, so the `finally` block yields
the same `.ok` result for a failing hook attempt as for a succeeding one; the
pending message is still taken (and equals what is re-chained), the debounce
bookkeeping is still cleared, and when a pending message existed, the new
agent task's handle is recorded. -/
theorem presence_hook_failure_isolated (chat_key : Key) (message : Option Msg)
    (emoji : Bool) (err : PyErr) (newTid : Nat) (m : ChanMaps)
    (hnd1 : NodupKeys m.running_tasks) (hnd2 : NodupKeys m.pending_messages)
    (hnd3 : NodupKeys m.debounce_timers) :
    taskFinally chat_key message emoji (.error err) newTid m =
      taskFinally chat_key message emoji (.ok ()) newTid m ∧
    taskFinally chat_key message emoji (.error err) newTid m =
      .ok (taskFinallyResult chat_key newTid m) ∧
    (taskFinallyResult chat_key newTid m).2 = lookupKey chat_key m.pending_messages ∧
    lookupKey chat_key (taskFinallyResult chat_key newTid m).1.pending_messages = none ∧
    lookupKey chat_key (taskFinallyResult chat_key newTid m).1.debounce_timers = none ∧
    (∀ pm, lookupKey chat_key m.pending_messages = some pm →
      lookupKey chat_key (taskFinallyResult chat_key newTid m).1.running_tasks =
        some newTid) := by
  have hs := taskFinallyResult_spec chat_key newTid m hnd1 hnd2 hnd3
  exact ⟨(taskFinally_ok _ _ _ _ _ _).trans (taskFinally_ok _ _ _ _ _ _).symm,
    taskFinally_ok _ _ _ _ _ _, hs.1, hs.2.1, hs.2.2.1, hs.2.2.2.1⟩

theorem presence_hook_failure_isolated_witness :
    taskFinally gKey (some e1msg) true (.error PyErr.keyError) 5
        ⟨[(gKey, 0)], [(gKey, 9)], [(gKey, e3msg)]⟩ =
      taskFinally gKey (some e1msg) true (.ok ()) 5
        ⟨[(gKey, 0)], [(gKey, 9)], [(gKey, e3msg)]⟩ ∧
    taskFinally gKey (some e1msg) true (.error PyErr.keyError) 5
        ⟨[(gKey, 0)], [(gKey, 9)], [(gKey, e3msg)]⟩ =
      .ok (taskFinallyResult gKey 5 ⟨[(gKey, 0)], [(gKey, 9)], [(gKey, e3msg)]⟩) ∧
    (taskFinallyResult gKey 5 ⟨[(gKey, 0)], [(gKey, 9)], [(gKey, e3msg)]⟩).2 =
      lookupKey gKey (⟨[(gKey, 0)], [(gKey, 9)], [(gKey, e3msg)]⟩ : ChanMaps).pending_messages ∧
    lookupKey gKey
        (taskFinallyResult gKey 5 ⟨[(gKey, 0)], [(gKey, 9)], [(gKey, e3msg)]⟩).1.pending_messages =
      none ∧
    lookupKey gKey
        (taskFinallyResult gKey 5 ⟨[(gKey, 0)], [(gKey, 9)], [(gKey, e3msg)]⟩).1.debounce_timers =
      none ∧
    (∀ pm,
      lookupKey gKey (⟨[(gKey, 0)], [(gKey, 9)], [(gKey, e3msg)]⟩ : ChanMaps).pending_messages =
        some pm →
      lookupKey gKey
          (taskFinallyResult gKey 5 ⟨[(gKey, 0)], [(gKey, 9)], [(gKey, e3msg)]⟩).1.running_tasks =
        some 5) :=
  presence_hook_failure_isolated gKey (some e1msg) true PyErr.keyError 5
    ⟨[(gKey, 0)], [(gKey, 9)], [(gKey, e3msg)]⟩ (by decide) (by decide) (by decide)

/-! ### Coalescing machinery (claim C2) -/

theorem mem_removeFirst {x y : Key × Nat} {l : List (Key × Nat)}
    (h : y ∈ removeFirst x l) : y ∈ l := by
  induction l with
  | nil => simp [removeFirst] at h
  | cons z rest ih =>
    simp only [removeFirst] at h
    by_cases hz : z = x
    · rw [if_pos hz] at h
      exact List.mem_cons_of_mem _ h
    · rw [if_neg hz] at h
      rcases List.mem_cons.mp h with h1 | h2
      · exact h1 ▸ List.mem_cons_self _ _
      · exact List.mem_cons_of_mem _ (ih h2)

theorem findExec_mem {tid : Nat} {M : Machine} {ex : ExecTask}
    (h : findExec tid M = some ex) : ex ∈ M.execs :=
  List.mem_of_find?_eq_some h

theorem debounceBody_ok_none {chat_key : Key} {start_time newTid : Nat}
    {m m' : ChanMaps}
    (h : debounceBody chat_key start_time newTid m = .ok (m', none)) : m' = m := by
  unfold debounceBody at h
  split at h
  · simp at h
  · split at h
    · simp only [Except.ok.injEq, Prod.mk.injEq] at h
      exact h.1.symm
    · split at h
      · simp only [Except.ok.injEq, Prod.mk.injEq] at h
        exact h.1.symm
      · simp at h

theorem debounceBody_ok_some {chat_key : Key} {start_time newTid : Nat}
    {m m' : ChanMaps} {msgArg : Option Msg}
    (h : debounceBody chat_key start_time newTid m = .ok (m', some msgArg)) :
    lookupKey chat_key m.debounce_timers = some start_time ∧
    ∃ fm, lookupKey chat_key m.pending_messages = some fm ∧
      msgArg = (if fm.is_empty then none else some fm) ∧
      m' = { m with pending_messages := eraseKey chat_key m.pending_messages,
                    running_tasks := insertKey chat_key newTid m.running_tasks } := by
  unfold debounceBody at h
  split at h
  · simp at h
  · rename_i t heq
    split at h
    · simp at h
    · rename_i hs
      push_neg at hs
      split at h
      · simp at h
      · rename_i fm hp
        simp only [Except.ok.injEq, Prod.mk.injEq, Option.some.injEq] at h
        exact ⟨by rw [hs]; exact heq, fm, hp, h.2.symm, h.1.symm⟩

theorem coalesce_step (M M' : Machine) (e : Ev) (he : isSchedulerInternal e = true)
    (hP : CoalesceInv M) (hstep : machineStep M e = some M') : CoalesceInv M' := by
  obtain ⟨hw, hx, hcase⟩ := hP
  cases e with
  | submit message dt => simp [isSchedulerInternal] at he
  | stopTimers k => simp [isSchedulerInternal] at he
  | wake k s =>
    simp only [machineStep, wakeStep] at hstep
    by_cases hmem : (k, s) ∈ M.waiters
    · rw [if_pos hmem] at hstep
      have hkg : k = gKey := hw (k, s) hmem
      subst hkg
      split at hstep
      · injection hstep with h
        subst h
        exact ⟨fun w hw2 => hw w (mem_removeFirst hw2), hx, hcase⟩
      · rename_i m2 hdb
        have hm : m2 = M.maps := debounceBody_ok_none hdb
        injection hstep with h
        subst h
        subst hm
        exact ⟨fun w hw2 => hw w (mem_removeFirst hw2), hx, hcase⟩
      · rename_i m2 msgArg hdb
        obtain ⟨ht, fm, hp, hmsg, hm'⟩ := debounceBody_ok_some hdb
        injection hstep with h
        subst h
        rcases hcase with ⟨h1, h2, h3⟩ | ⟨h1, h2⟩
        · have hfm : fm = e3msg := by
            rw [h2] at hp
            simpa [lookupKey] using hp.symm
          refine ⟨fun w hw2 => hw w (mem_removeFirst hw2), ?_, Or.inr ⟨?_, ?_⟩⟩
          · intro e' he'
            rcases List.mem_append.mp he' with hin | hin
            · exact hx e' hin
            · simp only [List.mem_singleton] at hin
              rw [hin]
          · rw [h1, hmsg, hfm]
            rfl
          · rw [hm']
            rw [h2]
            rfl
        · rw [h2] at hp
          cases hp
    · rw [if_neg hmem] at hstep
      cases hstep
  | finishA tid =>
    simp only [machineStep, finishAStep] at hstep
    split at hstep
    · rename_i ex hfe
      split at hstep
      · rename_i hph
        injection hstep with h
        subst h
        refine ⟨hw, ?_, ?_⟩
        · intro e' he'
          obtain ⟨a, ha, hfa⟩ := List.mem_map.mp he'
          by_cases hta : a.tid = tid
          · rw [if_pos hta] at hfa
            rw [← hfa]
            exact hx a ha
          · rw [if_neg hta] at hfa
            rw [← hfa]
            exact hx a ha
        · rcases hcase with ⟨h1, h2, h3⟩ | ⟨h1, h2⟩
          · have hnone : findExec tid M = none := by simp [findExec, h3]
            rw [hnone] at hfe
            cases hfe
          · refine Or.inr ⟨h1, ?_⟩
            by_cases hc : (lookupKey ex.key M.maps.running_tasks).isSome
            · rw [if_pos hc]
              exact h2
            · rw [if_neg hc]
              exact h2
      · cases hstep
    · cases hstep
  | finishB tid =>
    simp only [machineStep, finishBStep] at hstep
    split at hstep
    · rename_i ex hfe
      split at hstep
      · rename_i hph
        have hek : ex.key = gKey := hx ex (findExec_mem hfe)
        rcases hcase with ⟨h1, h2, h3⟩ | ⟨h1, h2⟩
        · have hnone : findExec tid M = none := by simp [findExec, h3]
          rw [hnone] at hfe
          cases hfe
        · have hfm : lookupKey ex.key M.maps.pending_messages = none := by
            rw [hek]
            exact h2
          split at hstep
          · rename_i fm hfm2
            rw [hfm] at hfm2
            cases hfm2
          · injection hstep with h
            subst h
            refine ⟨hw, ?_, Or.inr ⟨h1, ?_⟩⟩
            · intro e' he'
              exact hx e' (List.mem_of_mem_filter he')
            · rw [hek]
              rw [eraseKey_of_lookup_none gKey _ h2]
              exact h2
      · cases hstep
    · cases hstep

theorem coalesce_run (evs : List Ev) : ∀ M M' : Machine,
    (∀ e ∈ evs, isSchedulerInternal e = true) → CoalesceInv M →
    runEvents M evs = some M' → CoalesceInv M' := by
  induction evs with
  | nil =>
    intro M M' _ hP hrun
    simp only [runEvents, Option.some.injEq] at hrun
    rw [← hrun]
    exact hP
  | cons e evs ih =>
    intro M M' hevs hP hrun
    simp only [runEvents] at hrun
    cases hstep : machineStep M e with
    | none => rw [hstep] at hrun; cases hrun
    | some M1 =>
      rw [hstep] at hrun
      exact ih M1 M' (fun x hxm => hevs x (List.mem_cons_of_mem _ hxm))
        (coalesce_step M M1 e (hevs e (List.mem_cons_self _ _)) hP hstep) hrun

theorem submits3_inv (d1 d2 d3 : Nat) : CoalesceInv (submits3 d1 d2 d3) := by
  refine ⟨?_, ?_, Or.inl ⟨rfl, rfl, rfl⟩⟩
  · intro w hwm
    simp only [submits3, submitStep, initMachine, taskNotDone, lookupKey] at hwm
    rcases List.mem_cons.mp hwm with h | h
    · rw [h]
      rfl
    · rcases List.mem_cons.mp h with h2 | h2
      · rw [h2]
        rfl
      · rcases List.mem_cons.mp h2 with h3 | h3
        · rw [h3]
          rfl
        · cases h3
  · intro e' he'
    simp only [submits3, submitStep, initMachine, taskNotDone, lookupKey] at he'
    cases he'

/-- C2: coalescing, latest wins.  From the state in which E1, E2, E3 were
submitted for one idle channel, each before the previous submission's
debounce window elapsed (every wake-up happens after all three submissions),
every continuation by scheduler-internal events (debounce wake-ups and
completion steps, in any interleaving) creates at most one agent execution,
and only ever with E3 — E1 and E2 are never executed; the canonical
continuation in which the three debounce sleeps elapse in order creates
exactly one execution, carrying E3. -/
theorem coalescing_latest_wins (d1 d2 d3 : Nat) (evs : List Ev) (Mfin : Machine)
    (hevs : ∀ e ∈ evs, isSchedulerInternal e = true)
    (hrun : runEvents (submits3 d1 d2 d3) evs = some Mfin) :
    (Mfin.started = [] ∨ Mfin.started = [(gKey, some e3msg)]) ∧
    (runEvents (submits3 1 1 1) canonicalWakes).map Machine.started =
      some [(gKey, some e3msg)] := by
  constructor
  · have h := coalesce_run evs (submits3 d1 d2 d3) Mfin hevs (submits3_inv d1 d2 d3) hrun
    rcases h.2.2 with ⟨h1, _, _⟩ | ⟨h1, _⟩
    · exact Or.inl h1
    · exact Or.inr h1
  · rfl

theorem coalescing_latest_wins_witness :
    ((submits3 1 1 1).started = [] ∨ (submits3 1 1 1).started = [(gKey, some e3msg)]) ∧
    (runEvents (submits3 1 1 1) canonicalWakes).map Machine.started =
      some [(gKey, some e3msg)] :=
  coalescing_latest_wins 1 1 1 [] (submits3 1 1 1)
    (fun e he => absurd he (List.not_mem_nil e)) rfl
